import Mathlib

/-! Verification of the tour_scraper extraction pipeline (`streamlit_app.py`).

Strings are modelled as `List Char`; the parsed HTML document is a tree of
element and text nodes, mirroring the BeautifulSoup tree the scraper walks. -/

abbrev Str := List Char

/-- Convert a Lean string literal to the `List Char` representation. -/
def chars (s : String) : Str := s.data

mutual
/-- An HTML node: either a text node or an element with a tag name, a list of
CSS classes (the `class` attribute split on whitespace) and child nodes. -/
inductive Node : Type where
  | text : Str → Node
  | elem : Str → List Str → Children → Node
/-- Children of an element, kept as a bespoke list so that all recursion over
the tree is structural. -/
inductive Children : Type where
  | nil : Children
  | cons : Node → Children → Children
end

/-- Build a `Children` value from a plain list of nodes. -/
def toChildren : List Node → Children
  | [] => Children.nil
  | n :: r => Children.cons n (toChildren r)

/-- Python whitespace as stripped by `str.strip()` (ASCII fragment). -/
def pyIsSpace (c : Char) : Bool :=
  c = ' ' || c = '\t' || c = '\n' || c = '\r' || c = '\x0b' || c = '\x0c'

/-- Model of Python `str.strip()`: drop leading and trailing whitespace. -/
def stripStr (l : Str) : Str :=
  ((l.dropWhile pyIsSpace).reverse.dropWhile pyIsSpace).reverse

mutual
/-- Text of a node as produced by BeautifulSoup `get_text(strip=True)`:
every descendant text fragment is stripped and the results concatenated. -/
def nodeText : Node → Str
  | Node.text s => stripStr s
  | Node.elem _ _ ch => childrenText ch
/-- Concatenated stripped text of a list of children, in document order. -/
def childrenText : Children → Str
  | Children.nil => []
  | Children.cons n r => nodeText n ++ childrenText r
end

/-- BeautifulSoup `get_text(strip=True)` on a node. -/
def Node.getText (n : Node) : Str := nodeText n

/-- Does a class list (the tag's `class` attribute) contain a given class? -/
def hasCls (c0 : Str) : List Str → Bool
  | [] => false
  | c :: r => c == c0 || hasCls c0 r

/-- Does a node satisfy a BeautifulSoup tag/class filter?  `cls = none` means
no class constraint (as in `find_all('p')`). -/
def nodeIs (tag : Str) (cls : Option Str) : Node → Bool
  | Node.text _ => false
  | Node.elem t cs _ =>
      t == tag && (match cls with
                   | none => true
                   | some c0 => hasCls c0 cs)

mutual
/-- All nodes in the subtree rooted at a node (root included) matching a
tag/class filter, in document (preorder) order. -/
def nodeQuery (tag : Str) (cls : Option Str) : Node → List Node
  | Node.text _ => []
  | Node.elem t cs ch =>
      (if nodeIs tag cls (Node.elem t cs ch) then [Node.elem t cs ch] else [])
        ++ childrenQuery tag cls ch
/-- All matching nodes in a forest of children, in document order. -/
def childrenQuery (tag : Str) (cls : Option Str) : Children → List Node
  | Children.nil => []
  | Children.cons n r => nodeQuery tag cls n ++ childrenQuery tag cls r
end

/-- BeautifulSoup `find_all(tag, class_=cls)`: all matching descendants of a
node (the node itself excluded), in document order. -/
def Node.queryAll (n : Node) (tag : Str) (cls : Option Str) : List Node :=
  match n with
  | Node.text _ => []
  | Node.elem _ _ ch => childrenQuery tag cls ch

/-- BeautifulSoup `find(tag, class_=cls)`: the first matching descendant in
document order, if any. -/
def Node.queryFirst (n : Node) (tag : Str) (cls : Option Str) : Option Node :=
  (n.queryAll tag cls).head?

/-- Model of Python `str.replace(old, new)` for a single-character `old`:
every occurrence of the character is replaced by the given string.  This is
the building block of `clean_text` (source lines 56-67). -/
def replaceAll (c : Char) (r : Str) : Str → Str
  | [] => []
  | x :: xs => (if x = c then r else [x]) ++ replaceAll c r xs

/-- Model of `TourScraper.clean_text` (source lines 50-69): the seven
Unicode-to-ASCII substitutions applied in the source's dictionary order, with
the guard returning falsy input unchanged. -/
def clean_text (text : Str) : Str :=
  if text = [] then text
  else
    replaceAll '\u2026' (chars "...")
      (replaceAll '\u201d' (chars "\x22")
        (replaceAll '\u201c' (chars "\x22")
          (replaceAll '\u2018' (chars "\x27")
            (replaceAll '\u2019' (chars "\x27")
              (replaceAll '\u2014' (chars "-")
                (replaceAll '\u2013' (chars "-") text))))))

/-- Model of Python `text.split('.')`: split at every period, keeping empty
fragments, as in `str.split` with an explicit separator. -/
def splitDot : Str → List Str
  | [] => [[]]
  | c :: rest =>
      if c = '.' then [] :: splitDot rest
      else
        match splitDot rest with
        | [] => [[c]]
        | r :: rs => (c :: r) :: rs

/-- Model of Python `'. '.join(fragments)`. -/
def joinDot : List Str → Str
  | [] => []
  | [x] => x
  | x :: y :: r => x ++ '.' :: ' ' :: joinDot (y :: r)

/-- Model of Python `' '.join(fragments)`. -/
def joinSpace : List Str → Str
  | [] => []
  | [x] => x
  | x :: y :: r => x ++ ' ' :: joinSpace (y :: r)

/-- Does `pat` occur at the head of `l`? -/
def startsWith : Str → Str → Bool
  | [], _ => true
  | _ :: _, [] => false
  | p :: ps, x :: xs => p == x && startsWith ps xs

/-- Fuel-driven scan for `removeAllSub`; the fuel is consumed one unit per
step and always suffices when it starts at the length of the string. -/
def removeAllGo (pat : Str) : Nat → Str → Str
  | 0, l => l
  | _ + 1, [] => []
  | fuel + 1, x :: xs =>
      if !pat.isEmpty && startsWith pat (x :: xs) then
        removeAllGo pat fuel ((x :: xs).drop pat.length)
      else x :: removeAllGo pat fuel xs

/-- Model of Python `l.replace(pat, '')`: delete every occurrence of `pat`,
scanning left to right without overlap; an empty pattern deletes nothing. -/
def removeAllSub (pat l : Str) : Str := removeAllGo pat l.length l

/-- ASCII decimal digit, the `\d` character class of the day regex. -/
def isDig (c : Char) : Bool := '0' ≤ c && c ≤ '9'

/-- Attempt to match the regex `Day (\d+):` at the head of the string,
returning the captured digit run on success.  `\d+` is greedy, so the match
succeeds exactly when the maximal digit run after `"Day "` is non-empty and
immediately followed by a colon. -/
def dayMatchAt : Str → Option Str
  | 'D' :: 'a' :: 'y' :: ' ' :: rest =>
      match rest.dropWhile isDig with
      | ':' :: _ =>
          let ds := rest.takeWhile isDig
          if ds.isEmpty then none else some ds
      | _ => none
  | _ => none

/-- Model of `re.search(r'Day (\d+):', t)` (source line 119): scan left to
right for the first position where the pattern matches, returning the first
capture group. -/
def daySearch : Str → Option Str
  | [] => none
  | x :: xs =>
      match dayMatchAt (x :: xs) with
      | some d => some d
      | none => daySearch xs

/-- Attempt to match the regex `^Day \d+:\s*` at the head of the string,
returning the remainder after the whole match (digits, colon and any
following whitespace consumed). -/
def dayPatAt (l : Str) : Option Str :=
  match l with
  | 'D' :: 'a' :: 'y' :: ' ' :: rest =>
      match rest.dropWhile isDig with
      | ':' :: r2 =>
          if (rest.takeWhile isDig).isEmpty then none
          else some (r2.dropWhile pyIsSpace)
      | _ => none
  | _ => none

/-- Model of `re.sub(r'^Day \d+:\s*', '', t)` (source line 123): strip a
leading `Day <digits>:` plus following whitespace when present, otherwise
leave the string unchanged. -/
def stripDayPat (l : Str) : Str :=
  match dayPatAt l with
  | some rest => rest
  | none => l

/-- Source lines 119-127: search the cleaned title for the day pattern; on
failure the candidate is dropped, on success the day number is the capture
and the title is the text with any anchored `Day <digits>:` prefix
stripped. -/
def titleStep (cleaned : Str) : Option (Str × Str) :=
  match daySearch cleaned with
  | some d => some (d, stripDayPat cleaned)
  | none => none

/-- One itinerary day as assembled by `parse_itinerary_days` (source lines
97-104): `icon` and `image` are reserved and stay empty. -/
structure DayEntry where
  icon : Str
  day : Str
  title : Str
  image : Str
  body : Str
deriving DecidableEq

/-- Source lines 107-116: locate the title node, take its stripped text,
delete the arrow decoration's text (all occurrences, via `str.replace`) and
strip again when an arrow node is present, then normalize.  `none` when the
item has no title node. -/
def cleanedTitle (te : Node) : Str :=
  match te.queryFirst (chars "div") (some (chars "ao-common-accordion__arrow")) with
  | some arrow => clean_text (stripStr (removeAllSub arrow.getText te.getText))
  | none => clean_text te.getText

/-- Source lines 132-141: locate the content node; join the stripped text of
all `p` descendants with single spaces when any exist, otherwise fall back to
the content node's own stripped text; normalize.  Empty when the content node
is absent. -/
def bodyOf (item : Node) : Str :=
  match item.queryFirst (chars "div") (some (chars "ao-common-accordion__bottom-content")) with
  | none => []
  | some content =>
      clean_text
        (if (content.queryAll (chars "p") none).isEmpty then content.getText
         else joinSpace ((content.queryAll (chars "p") none).map Node.getText))

/-- Source lines 96-144, one loop iteration: build the candidate `DayEntry`
for a list item, or `none` when the item is discarded (no title node, no day
pattern, or empty title/body after cleaning). -/
def processItem (item : Node) : Option DayEntry :=
  match item.queryFirst (chars "div") (some (chars "js-ao-common-accordion__title")) with
  | none => none
  | some te =>
      match titleStep (cleanedTitle te) with
      | none => none
      | some dt =>
          if dt.2 ≠ [] ∧ bodyOf item ≠ [] then
            some ⟨[], dt.1, dt.2, [], bodyOf item⟩
          else none

/-- The accumulator loop of `parse_itinerary_days` (source lines 96-144):
surviving entries are appended to the accumulator in enumeration order. -/
def daysLoop (acc : List DayEntry) : List Node → List DayEntry
  | [] => acc
  | item :: rest =>
      match processItem item with
      | some e => daysLoop (acc ++ [e]) rest
      | none => daysLoop acc rest

/-- Model of `TourScraper.parse_itinerary_days` (source lines 84-146). -/
def parse_itinerary_days (soup : Node) : List DayEntry :=
  match soup.queryFirst (chars "section") (some (chars "ao-clp-custom-tdp-itinerary")) with
  | none => []
  | some sec => daysLoop [] (sec.queryAll (chars "li") (some (chars "js-ao-common-accordion")))

/-- Model of `TourScraper.parse_itinerary_description` (source lines 71-82). -/
def parse_itinerary_description (soup : Node) : List Str :=
  match soup.queryFirst (chars "div") (some (chars "ao-clp-custom-tdp-itinerary__description")) with
  | none => [[]]
  | some d =>
      [joinDot (((splitDot (clean_text d.getText)).map stripStr).filter (fun s => !s.isEmpty))]

/-- The JSON-serializable record assembled by `scrape_tour_info` (source
lines 170-173) once markup is in hand. -/
structure TourRecord where
  summary : List Str
  itinerary : List DayEntry

/-- The pure extraction part of `TourScraper.scrape_tour_info` (source lines
161-175): what the scraper returns once the fetched markup is parsed. -/
def extract (soup : Node) : TourRecord :=
  ⟨parse_itinerary_description soup, parse_itinerary_days soup⟩

/-! Spec-side comparison definitions, each written from the specification's
own wording so it can be compared with the behaviour of the source model. -/

/-- The six-code-point family the specification's normalization table
targets (the source table has seven entries because both dash code points
map to a hyphen and both quote pairs are listed separately). -/
def cleanTargets : List Char := ['\u2013', '\u2014', '\u2019', '\u2018', '\u201c', '\u201d', '\u2026']

/-- The specification's replacement table (§4.2), read as a per-character
function: targeted code points map to their documented ASCII replacement and
every other character maps to itself. -/
def replOf (c : Char) : Str :=
  if c = '\u2013' ∨ c = '\u2014' then chars "-"
  else if c = '\u2019' ∨ c = '\u2018' then chars "\x27"
  else if c = '\u201c' ∨ c = '\u201d' then chars "\x22"
  else if c = '\u2026' then chars "..."
  else [c]

/-- Apply a character-to-string substitution to every character of a string,
concatenating the pieces; the shape of a pure single-pass substitution. -/
def charExpand (f : Char → Str) : Str → Str
  | [] => []
  | x :: xs => f x ++ charExpand f xs

/-- Remove only the first occurrence of `pat` from `l`, the behaviour the
specification ascribes to the arrow-text removal; written from the spec's
words for comparison with `removeAllSub`. -/
def removeFirstSub (pat : Str) : Str → Str
  | [] => []
  | x :: xs =>
      if !pat.isEmpty && startsWith pat (x :: xs) then (x :: xs).drop pat.length
      else x :: removeFirstSub pat xs

/-- Convert a `Children` value back to a plain list of nodes. -/
def childListOf : Children → List Node
  | Children.nil => []
  | Children.cons n r => n :: childListOf r

/-- The direct children of a node as a plain list. -/
def childList : Node → List Node
  | Node.text _ => []
  | Node.elem _ _ ch => childListOf ch

/-- Is a node a `p` element? -/
def isPTag : Node → Bool
  | Node.elem t _ _ => t == chars "p"
  | Node.text _ => false

/-- Body text as the specification's wording describes it: join the stripped
text of the content node's paragraph CHILD nodes when any exist, else fall
back to the content node's full stripped text, then normalize.  Written from
the spec's words for comparison with `bodyOf`, whose paragraph search
descends recursively. -/
def specBody (content : Node) : Str :=
  let ps := (childList content).filter isPTag
  clean_text (if ps.isEmpty then content.getText else joinSpace (ps.map Node.getText))

/-! Concrete documents used to evaluate the extractor. -/

/-- A list item holding a day title and a paragraph body. -/
def mkDayItem (title body : String) : Node :=
  Node.elem (chars "li") [chars "js-ao-common-accordion"] (toChildren
    [Node.elem (chars "div") [chars "js-ao-common-accordion__title"] (toChildren
      [Node.text (chars title)]),
     Node.elem (chars "div") [chars "ao-common-accordion__bottom-content"] (toChildren
      [Node.elem (chars "p") [] (toChildren [Node.text (chars body)])])])

/-- The itinerary section of the two-day example document. -/
def secTwoDays : Node :=
  Node.elem (chars "section") [chars "ao-clp-custom-tdp-itinerary"] (toChildren
    [Node.elem (chars "ul") [] (toChildren
      [mkDayItem "Day 1: Hanoi" "Arrive.", mkDayItem "Day 2: Halong Bay" "Cruise."])])

/-- Document with two well-formed day items, in order. -/
def docTwoDays : Node :=
  Node.elem (chars "html") [] (toChildren [secTwoDays])

/-- Document with no itinerary section and no description container. -/
def docEmpty : Node := Node.elem (chars "html") [] Children.nil

/-- The description container of `docDesc`. -/
def descNode : Node :=
  Node.elem (chars "div") [chars "ao-clp-custom-tdp-itinerary__description"] (toChildren
    [Node.text (chars "Visit Hanoi. See the lake. Enjoy.")])

/-- Document whose description container holds the spec's worked example. -/
def docDesc : Node :=
  Node.elem (chars "html") [] (toChildren [descNode])

/-- Document with an itinerary section but no description container. -/
def docNoDesc : Node :=
  Node.elem (chars "html") [] (toChildren [secTwoDays])

/-- Document whose single day item has the day pattern in mid-title, not at
the start. -/
def docMidPattern : Node :=
  Node.elem (chars "html") [] (toChildren
    [Node.elem (chars "section") [chars "ao-clp-custom-tdp-itinerary"] (toChildren
      [mkDayItem "X Day 3: Hanoi" "Fun."])])

/-- Title node whose text contains the arrow glyph three times while the
arrow decoration node supplies that glyph as its text. -/
def teArrow : Node :=
  Node.elem (chars "div") [chars "js-ao-common-accordion__title"] (toChildren
    [Node.text (chars "Day 1: Go\u2192Stop\u2192"),
     Node.elem (chars "div") [chars "ao-common-accordion__arrow"] (toChildren
      [Node.text (chars "\u2192")])])

/-- The arrow decoration node inside `teArrow`. -/
def arrowNode : Node :=
  Node.elem (chars "div") [chars "ao-common-accordion__arrow"] (toChildren
    [Node.text (chars "\u2192")])

/-- The day item carrying `teArrow` as its title node. -/
def itemArrow : Node :=
  Node.elem (chars "li") [chars "js-ao-common-accordion"] (toChildren
    [teArrow,
     Node.elem (chars "div") [chars "ao-common-accordion__bottom-content"] (toChildren
      [Node.elem (chars "p") [] (toChildren [Node.text (chars "Ride.")])])])

/-- Document whose single day item carries `teArrow` as its title node. -/
def docArrow : Node :=
  Node.elem (chars "html") [] (toChildren
    [Node.elem (chars "section") [chars "ao-clp-custom-tdp-itinerary"] (toChildren
      [itemArrow])])

/-- Content node whose only paragraph sits below an intermediate `div`, so it
is a descendant but not a child. -/
def contentNested : Node :=
  Node.elem (chars "div") [chars "ao-common-accordion__bottom-content"] (toChildren
    [Node.text (chars "Intro."),
     Node.elem (chars "div") [] (toChildren
      [Node.elem (chars "p") [] (toChildren [Node.text (chars "Deep")])])])

/-- Day item whose content node is `contentNested`. -/
def itemNested : Node :=
  Node.elem (chars "li") [chars "js-ao-common-accordion"] (toChildren
    [Node.elem (chars "div") [chars "js-ao-common-accordion__title"] (toChildren
      [Node.text (chars "Day 1: Hanoi")]),
     contentNested])

/-- Document whose single day item is `itemNested`. -/
def docNested : Node :=
  Node.elem (chars "html") [] (toChildren
    [Node.elem (chars "section") [chars "ao-clp-custom-tdp-itinerary"] (toChildren
      [itemNested])])

/-- List item whose title node text is `"Highlights"` and which has no
content node: the day pattern never matches, so it is discarded. -/
def itemHighlights : Node :=
  Node.elem (chars "li") [chars "js-ao-common-accordion"] (toChildren
    [Node.elem (chars "div") [chars "js-ao-common-accordion__title"] (toChildren
      [Node.text (chars "Highlights")])])

/-- The title node of `itemHighlights`. -/
def teHighlights : Node :=
  Node.elem (chars "div") [chars "js-ao-common-accordion__title"] (toChildren
    [Node.text (chars "Highlights")])

/-! Sanity evaluations of the model on concrete inputs. -/

example : chars "ab" = ['a', 'b'] := rfl

example : (Node.elem (chars "div") [] (toChildren [Node.text (chars " a "), Node.text (chars "b ")])).getText = chars "ab" := by decide

example : clean_text (chars "a\u2013b\u2026") = chars "a-b..." := by decide

example : splitDot (chars "a. b.") = [chars "a", chars " b", []] := by decide

example : removeAllSub (chars "ab") (chars "xabyabab") = chars "xy" := by decide

example : removeAllSub [] (chars "xy") = chars "xy" := by decide

example : ('\u2013').toNat = 0x2013 := by decide

example : ('\u2014').toNat = 0x2014 := by decide

example : ('\u2018').toNat = 0x2018 := by decide

example : ('\u2019').toNat = 0x2019 := by decide

example : ('\u201c').toNat = 0x201c := by decide

example : ('\u201d').toNat = 0x201d := by decide

example : ('\u2026').toNat = 0x2026 := by decide

example : daySearch (chars "Day 12: Hanoi") = some (chars "12") := by decide

example : daySearch (chars "X Day 3: Hue") = some (chars "3") := by decide

example : daySearch (chars "Highlights") = none := by decide

example : daySearch (chars "Day 12x: y") = none := by decide

example : stripDayPat (chars "Day 1:  Hanoi") = chars "Hanoi" := by decide

example : stripDayPat (chars "X Day 3: Hue") = chars "X Day 3: Hue" := by decide

example : removeFirstSub (chars "ab") (chars "xabyab") = chars "xyab" := by decide

example : parse_itinerary_days docTwoDays =
    [⟨[], chars "1", chars "Hanoi", [], chars "Arrive."⟩,
     ⟨[], chars "2", chars "Halong Bay", [], chars "Cruise."⟩] := by decide

example : parse_itinerary_description docDesc =
    [chars "Visit Hanoi. See the lake. Enjoy"] := by decide

example : parse_itinerary_days docArrow =
    [⟨[], chars "1", chars "GoStop", [], chars "Ride."⟩] := by decide

example : parse_itinerary_days docNested =
    [⟨[], chars "1", chars "Hanoi", [], chars "Deep"⟩] := by decide

/-! Lemmas about the text normalizer. -/

lemma replaceAll_append (c : Char) (r : Str) (a b : Str) :
    replaceAll c r (a ++ b) = replaceAll c r a ++ replaceAll c r b := by
  induction a with
  | nil => rfl
  | cons x xs ih => simp [replaceAll, ih]

/-- The unguarded body of `clean_text`: the seven substitutions in order. -/
def clean7 (text : Str) : Str :=
  replaceAll '\u2026' (chars "...")
    (replaceAll '\u201d' (chars "\x22")
      (replaceAll '\u201c' (chars "\x22")
        (replaceAll '\u2018' (chars "\x27")
          (replaceAll '\u2019' (chars "\x27")
            (replaceAll '\u2014' (chars "-")
              (replaceAll '\u2013' (chars "-") text))))))

lemma clean_text_eq_clean7 (l : Str) : clean_text l = clean7 l := by
  by_cases h : l = []
  · subst h; rfl
  · simp [clean_text, clean7, h]

lemma clean7_append (a b : Str) : clean7 (a ++ b) = clean7 a ++ clean7 b := by
  simp [clean7, replaceAll_append]

lemma clean7_single (x : Char) : clean7 [x] = replOf x := by
  by_cases h1 : x = '\u2013'
  · subst h1; rfl
  by_cases h2 : x = '\u2014'
  · subst h2; rfl
  by_cases h3 : x = '\u2019'
  · subst h3; rfl
  by_cases h4 : x = '\u2018'
  · subst h4; rfl
  by_cases h5 : x = '\u201c'
  · subst h5; rfl
  by_cases h6 : x = '\u201d'
  · subst h6; rfl
  by_cases h7 : x = '\u2026'
  · subst h7; rfl
  · simp [clean7, replaceAll, replOf, h1, h2, h3, h4, h5, h6, h7]

lemma clean7_expand (l : Str) : clean7 l = charExpand replOf l := by
  induction l with
  | nil => rfl
  | cons x xs ih =>
      have hx : x :: xs = [x] ++ xs := rfl
      rw [hx, clean7_append, clean7_single, ih]
      rfl

lemma clean_text_expand (l : Str) : clean_text l = charExpand replOf l := by
  rw [clean_text_eq_clean7, clean7_expand]

lemma mem_charExpand {f : Char → Str} {y : Char} :
    ∀ {l : Str}, y ∈ charExpand f l → ∃ x ∈ l, y ∈ f x := by
  intro l
  induction l with
  | nil => intro h; simp [charExpand] at h
  | cons x xs ih =>
      intro h
      rcases List.mem_append.mp h with h1 | h2
      · exact ⟨x, List.mem_cons_self x xs, h1⟩
      · obtain ⟨z, hz, hy⟩ := ih h2
        exact ⟨z, List.mem_cons_of_mem x hz, hy⟩

lemma mem_replOf {c x : Char} (h : c ∈ replOf x) :
    c = x ∨ c ∈ ['-', '\x27', '\x22', '.'] := by
  unfold replOf at h
  split_ifs at h <;> simp_all [chars]

lemma replOf_no_target (x c : Char) (hc : c ∈ cleanTargets) : c ∉ replOf x := by
  intro hmem
  rcases mem_replOf hmem with rfl | hascii
  · revert hmem; fin_cases hc <;> decide
  · revert hascii; fin_cases hc <;> decide

lemma replOf_of_not_target {x : Char} (hx : x ∉ cleanTargets) : replOf x = [x] := by
  simp only [cleanTargets, List.mem_cons, List.not_mem_nil, or_false] at hx
  push_neg at hx
  obtain ⟨h1, h2, h3, h4, h5, h6, h7⟩ := hx
  simp [replOf, h1, h2, h3, h4, h5, h6, h7]

lemma charExpand_id {f : Char → Str} :
    ∀ {l : Str}, (∀ x ∈ l, f x = [x]) → charExpand f l = l := by
  intro l
  induction l with
  | nil => intro _; rfl
  | cons x xs ih =>
      intro h
      have hx := h x (List.mem_cons_self x xs)
      have hxs := ih fun z hz => h z (List.mem_cons_of_mem x hz)
      simp [charExpand, hx, hxs]

lemma clean_text_no_target (l : Str) (c : Char) (hc : c ∈ cleanTargets) :
    c ∉ clean_text l := by
  rw [clean_text_expand]
  intro hmem
  obtain ⟨x, _, hx⟩ := mem_charExpand hmem
  exact replOf_no_target x c hc hx

lemma clean_text_id (l : Str) (h : ∀ c ∈ l, c ∉ cleanTargets) : clean_text l = l := by
  rw [clean_text_expand]
  exact charExpand_id fun x hx => replOf_of_not_target (h x hx)

/-! Lemmas about the day-extraction loop. -/

lemma daysLoop_eq_filterMap :
    ∀ (items : List Node) (acc : List DayEntry),
      daysLoop acc items = acc ++ items.filterMap processItem := by
  intro items
  induction items with
  | nil => intro acc; simp [daysLoop]
  | cons i rest ih =>
      intro acc
      rcases h : processItem i with _ | e <;>
        simp [daysLoop, h, ih, List.filterMap_cons]

lemma processItem_fields (i : Node) (e : DayEntry) (h : processItem i = some e) :
    e.title ≠ [] ∧ e.body ≠ [] := by
  unfold processItem at h
  split at h
  · exact Option.noConfusion h
  split at h
  · exact Option.noConfusion h
  split at h
  next hcond =>
    injection h with h2
    rw [← h2]
    exact ⟨hcond.1, hcond.2⟩
  next => exact Option.noConfusion h

/-! Claim theorems. -/

/-- C4: the normalizer rewrites every character through the documented
table (en/em dash to hyphen, curly single quotes to apostrophe, curly
double quotes to straight quote, ellipsis to three periods) and does
nothing else; its output never contains a targeted code point; it is the
identity on strings free of the targeted code points, including the empty
string; and being a Lean function it is total. -/
theorem clean_text_spec :
    (∀ l : Str, clean_text l = charExpand replOf l)
    ∧ (∀ (l : Str) (c : Char), c ∈ cleanTargets → c ∉ clean_text l)
    ∧ (∀ l : Str, (∀ c ∈ l, c ∉ cleanTargets) → clean_text l = l)
    ∧ clean_text [] = [] :=
  ⟨clean_text_expand, clean_text_no_target, clean_text_id, rfl⟩

/-- Witness for C4 at concrete inputs: the en dash is a targeted code point
absent from the cleaned string, and an all-ASCII string is left unchanged. -/
theorem clean_text_spec_witness :
    ('\u2013' ∈ cleanTargets ∧ '\u2013' ∉ clean_text (chars "a\u2013b"))
    ∧ ((∀ c ∈ chars "abc", c ∉ cleanTargets) ∧ clean_text (chars "abc") = chars "abc") :=
  ⟨⟨by decide, clean_text_spec.2.1 (chars "a\u2013b") '\u2013' (by decide)⟩,
   ⟨by decide, clean_text_spec.2.2.1 (chars "abc") (by decide)⟩⟩

/-- C10: the normalizer is idempotent — no replacement string contains a
character that is itself subject to replacement. -/
theorem clean_text_idempotent : ∀ l : Str, clean_text (clean_text l) = clean_text l := by
  intro l
  apply clean_text_id
  intro c hc hct
  exact clean_text_no_target l c hct hc

/-- C3: every entry returned by the day extractor has a non-empty title and
a non-empty body after cleaning; a candidate whose content yields empty
text is therefore never in the result. -/
theorem day_entries_nonempty_fields :
    ∀ (soup : Node) (e : DayEntry),
      e ∈ parse_itinerary_days soup → e.title ≠ [] ∧ e.body ≠ [] := by
  intro soup e h
  unfold parse_itinerary_days at h
  split at h
  · simp at h
  · rw [daysLoop_eq_filterMap, List.nil_append, List.mem_filterMap] at h
    obtain ⟨i, _, hp⟩ := h
    exact processItem_fields i e hp

/-- Witness for C3: a concrete entry of the two-day document has non-empty
title and body. -/
theorem day_entries_nonempty_fields_witness :
    (⟨[], chars "1", chars "Hanoi", [], chars "Arrive."⟩ : DayEntry)
        ∈ parse_itinerary_days docTwoDays
    ∧ (chars "Hanoi" ≠ [] ∧ chars "Arrive." ≠ []) :=
  ⟨by decide,
   day_entries_nonempty_fields docTwoDays
     ⟨[], chars "1", chars "Hanoi", [], chars "Arrive."⟩ (by decide)⟩

/-- C5: when the description container is present the summary is the
container's normalized text split on periods, fragment-stripped, emptied
fragments dropped, and rejoined with `". "`; on the spec's worked example
the result is the one-element sequence `"Visit Hanoi. See the lake. Enjoy"`. -/
theorem description_split_join :
    (∀ (soup d : Node),
      soup.queryFirst (chars "div") (some (chars "ao-clp-custom-tdp-itinerary__description")) = some d →
      parse_itinerary_description soup =
        [joinDot (((splitDot (clean_text d.getText)).map stripStr).filter (fun s => !s.isEmpty))])
    ∧ parse_itinerary_description docDesc = [chars "Visit Hanoi. See the lake. Enjoy"] := by
  constructor
  · intro soup d h
    simp [parse_itinerary_description, h]
  · decide

/-- Witness for C5: the general clause applied to the worked-example
document, with its hypothesis discharged by evaluation. -/
theorem description_split_join_witness :
    parse_itinerary_description docDesc =
      [joinDot (((splitDot (clean_text descNode.getText)).map stripStr).filter
        (fun s => !s.isEmpty))] :=
  description_split_join.1 docDesc descNode rfl

/-- C6: the summary extractor always returns exactly one element, and when
the description container is absent that element is the empty string. -/
theorem description_absent_singleton :
    ∀ soup : Node,
      (parse_itinerary_description soup).length = 1
      ∧ (soup.queryFirst (chars "div") (some (chars "ao-clp-custom-tdp-itinerary__description")) = none →
          parse_itinerary_description soup = [[]]) := by
  intro soup
  constructor
  · unfold parse_itinerary_description
    split <;> rfl
  · intro h
    simp [parse_itinerary_description, h]

/-- Witness for C6: a document whose markup has no description container
yields the one-element sequence holding the empty string. -/
theorem description_absent_singleton_witness :
    (parse_itinerary_description docNoDesc).length = 1
    ∧ parse_itinerary_description docNoDesc = [[]] :=
  ⟨(description_absent_singleton docNoDesc).1,
   (description_absent_singleton docNoDesc).2 rfl⟩

/-- C8: the day extractor emits surviving candidates in enumeration
(document) order — the loop is an order-preserving `filterMap`, with no
re-sorting by day number — and on the two-day example document it returns
the `Day 1`/`Day 2` entries in that order. -/
theorem days_document_order :
    (∀ (soup sec : Node),
      soup.queryFirst (chars "section") (some (chars "ao-clp-custom-tdp-itinerary")) = some sec →
      parse_itinerary_days soup =
        (sec.queryAll (chars "li") (some (chars "js-ao-common-accordion"))).filterMap processItem)
    ∧ parse_itinerary_days docTwoDays =
        [⟨[], chars "1", chars "Hanoi", [], chars "Arrive."⟩,
         ⟨[], chars "2", chars "Halong Bay", [], chars "Cruise."⟩] := by
  constructor
  · intro soup sec h
    simp [parse_itinerary_days, h, daysLoop_eq_filterMap]
  · decide

/-- Witness for C8: the order-preservation clause applied to the two-day
document and its itinerary section. -/
theorem days_document_order_witness :
    parse_itinerary_days docTwoDays =
      (secTwoDays.queryAll (chars "li") (some (chars "js-ao-common-accordion"))).filterMap
        processItem :=
  days_document_order.1 docTwoDays secTwoDays rfl

/-- C9: once markup is parsed the extractor always produces a `TourRecord`;
an absent itinerary container degrades to an empty itinerary sequence, an
absent description container degrades to a summary holding one empty
string, and the summary always has exactly one element. -/
theorem days_container_absent_empty :
    ∀ soup : Node,
      (soup.queryFirst (chars "section") (some (chars "ao-clp-custom-tdp-itinerary")) = none →
        (extract soup).itinerary = [])
      ∧ (soup.queryFirst (chars "div") (some (chars "ao-clp-custom-tdp-itinerary__description")) = none →
          (extract soup).summary = [[]])
      ∧ (extract soup).summary.length = 1 := by
  intro soup
  refine ⟨fun h => ?_, fun h => ?_, ?_⟩
  · simp [extract, parse_itinerary_days, h]
  · simp [extract, parse_itinerary_description, h]
  · exact (description_absent_singleton soup).1

/-- Witness for C9: the document with neither structural marker yields the
empty itinerary and the singleton empty summary. -/
theorem days_container_absent_empty_witness :
    (extract docEmpty).itinerary = [] ∧ (extract docEmpty).summary = [[]] :=
  ⟨(days_container_absent_empty docEmpty).1 rfl,
   (days_container_absent_empty docEmpty).2.1 rfl⟩

/-- C1 counterexample: the day-number match is `re.search`, not anchored at
the start.  A candidate whose cleaned title is `"X Day 3: Hanoi"` does not
begin with the `Day <digits>:` pattern, yet the extractor keeps it, captures
the mid-string digits as the day, and leaves the title unstripped. -/
theorem day_pattern_not_anchored_cex :
    parse_itinerary_days docMidPattern =
      [⟨[], chars "3", chars "X Day 3: Hanoi", [], chars "Fun."⟩]
    ∧ dayPatAt (chars "X Day 3: Hanoi") = none := by
  constructor
  · decide
  · decide

/-- C1 amended: the cleaned title is searched (unanchored, leftmost match)
for `Day <digits>:`; a candidate with no occurrence anywhere is discarded,
and on a match the day is the leftmost capture while the title is the
cleaned text with a leading `Day <digits>:` prefix plus following
whitespace stripped only when the text actually begins with the pattern —
otherwise the title is kept unchanged. -/
theorem day_pattern_search_amended :
    (∀ ct : Str, daySearch ct = none → titleStep ct = none)
    ∧ (∀ (ct d : Str), daySearch ct = some d → titleStep ct = some (d, stripDayPat ct))
    ∧ (∀ (ct rest : Str), dayPatAt ct = some rest → stripDayPat ct = rest)
    ∧ (∀ (ct : Str), dayPatAt ct = none → stripDayPat ct = ct)
    ∧ (∀ (item te : Node),
        item.queryFirst (chars "div") (some (chars "js-ao-common-accordion__title")) = some te →
        daySearch (cleanedTitle te) = none → processItem item = none) := by
  refine ⟨?_, ?_, ?_, ?_, ?_⟩
  · intro ct h; simp [titleStep, h]
  · intro ct d h; simp [titleStep, h]
  · intro ct rest h; simp [stripDayPat, h]
  · intro ct h; simp [stripDayPat, h]
  · intro item te h1 h2
    simp [processItem, h1, titleStep, h2]

/-- Witness for C1's amended statement at concrete titles: a titleless
pattern is discarded, an anchored title is captured and stripped, and the
`"Highlights"` item is dropped. -/
theorem day_pattern_search_amended_witness :
    titleStep (chars "Highlights") = none
    ∧ titleStep (chars "Day 2: Hue") = some (chars "2", stripDayPat (chars "Day 2: Hue"))
    ∧ stripDayPat (chars "Day 2: Hue") = chars "Hue"
    ∧ stripDayPat (chars "X Day 3: Hue") = chars "X Day 3: Hue"
    ∧ processItem itemHighlights = none :=
  ⟨day_pattern_search_amended.1 (chars "Highlights") (by decide),
   day_pattern_search_amended.2.1 (chars "Day 2: Hue") (chars "2") (by decide),
   day_pattern_search_amended.2.2.1 (chars "Day 2: Hue") (chars "Hue") (by decide),
   day_pattern_search_amended.2.2.2.1 (chars "X Day 3: Hue") (by decide),
   day_pattern_search_amended.2.2.2.2 itemHighlights teHighlights rfl (by decide)⟩

/-- C2 counterexample: the arrow text removal is Python `str.replace`, which
deletes every occurrence, not only the first.  With arrow text `"→"` and
title text `"Day 1: Go\u2192Stop\u2192\u2192"`, the extractor emits the title `"GoStop"`,
while removing only the first occurrence would have produced
`"GoStop\u2192\u2192"`. -/
theorem arrow_removal_not_first_only_cex :
    parse_itinerary_days docArrow = [⟨[], chars "1", chars "GoStop", [], chars "Ride."⟩]
    ∧ clean_text (stripStr (removeFirstSub (chars "\u2192") (chars "Day 1: Go\u2192Stop\u2192\u2192")))
        = chars "Day 1: GoStop\u2192\u2192"
    ∧ stripDayPat (chars "Day 1: GoStop\u2192\u2192") = chars "GoStop\u2192\u2192"
    ∧ chars "GoStop" ≠ chars "GoStop\u2192\u2192" := by
  refine ⟨by decide, by decide, by decide, by decide⟩

/-- C2 amended: when the title node contains an arrow decoration node, every
occurrence of the arrow's text (scanned left to right, non-overlapping) is
removed from the title text — not only the first — before trimming and
normalization. -/
theorem arrow_removal_all_occurrences :
    ∀ (te arrow : Node),
      te.queryFirst (chars "div") (some (chars "ao-common-accordion__arrow")) = some arrow →
      cleanedTitle te = clean_text (stripStr (removeAllSub arrow.getText te.getText)) := by
  intro te arrow h
  simp [cleanedTitle, h]

/-- Witness for C2's amended statement: the arrow title node of the arrow
document, whose glyph occurs three times and is removed everywhere. -/
theorem arrow_removal_all_occurrences_witness :
    cleanedTitle teArrow = clean_text (stripStr (removeAllSub arrowNode.getText teArrow.getText))
    ∧ cleanedTitle teArrow = chars "Day 1: GoStop" :=
  ⟨arrow_removal_all_occurrences teArrow arrowNode rfl, by decide⟩

/-- C7 counterexample: the paragraph lookup inside the content node is
`find_all('p')`, which searches all descendants, not only children.  In a
content node whose only paragraph sits under an intermediate `div`, the
extractor takes that paragraph's text `"Deep"`, while the child-based rule
the claim states would have fallen back to the content node's full text
`"Intro.Deep"`. -/
theorem body_paragraph_descendants_cex :
    parse_itinerary_days docNested = [⟨[], chars "1", chars "Hanoi", [], chars "Deep"⟩]
    ∧ itemNested.queryFirst (chars "div") (some (chars "ao-common-accordion__bottom-content"))
        = some contentNested
    ∧ specBody contentNested = chars "Intro.Deep"
    ∧ chars "Deep" ≠ chars "Intro.Deep" := by
  refine ⟨by decide, rfl, by decide, by decide⟩

/-- C7 amended: the body of an emitted entry is built from the paragraph
DESCENDANT nodes of the content node (any depth, document order): their
stripped texts joined with single spaces when at least one exists, else the
content node's own stripped text, normalized in both cases; with no content
node the body stays empty. -/
theorem body_paragraph_descendants :
    (∀ (item : Node) (e : DayEntry), processItem item = some e → e.body = bodyOf item)
    ∧ (∀ (item content : Node),
        item.queryFirst (chars "div") (some (chars "ao-common-accordion__bottom-content")) = some content →
        bodyOf item =
          clean_text
            (if (content.queryAll (chars "p") none).isEmpty then content.getText
             else joinSpace ((content.queryAll (chars "p") none).map Node.getText)))
    ∧ (∀ item : Node,
        item.queryFirst (chars "div") (some (chars "ao-common-accordion__bottom-content")) = none →
        bodyOf item = []) := by
  refine ⟨?_, ?_, ?_⟩
  · intro item e h
    unfold processItem at h
    split at h
    · exact Option.noConfusion h
    split at h
    · exact Option.noConfusion h
    split at h
    next =>
      injection h with h2
      rw [← h2]
    next => exact Option.noConfusion h
  · intro item content h
    simp [bodyOf, h]
  · intro item h
    simp [bodyOf, h]

/-- Witness for C7's amended statement: on the nested-paragraph item the
emitted body equals `bodyOf`, the content-node clause evaluates, and the
titleless `"Highlights"` item has no content node so its body is empty. -/
theorem body_paragraph_descendants_witness :
    (⟨[], chars "1", chars "Hanoi", [], chars "Deep"⟩ : DayEntry).body = bodyOf itemNested
    ∧ bodyOf itemNested =
        clean_text
          (if (contentNested.queryAll (chars "p") none).isEmpty then contentNested.getText
           else joinSpace ((contentNested.queryAll (chars "p") none).map Node.getText))
    ∧ bodyOf itemHighlights = [] :=
  ⟨body_paragraph_descendants.1 itemNested ⟨[], chars "1", chars "Hanoi", [], chars "Deep"⟩
     (by decide),
   body_paragraph_descendants.2.1 itemNested contentNested rfl,
   body_paragraph_descendants.2.2 itemHighlights rfl⟩
